import Mathlib

/-!
Verification of the tensorly-gcp specification against a shallow embedding of
the library.  The repository snapshot ships only the documentation notebooks
and the README; the algorithmic core (the loss registry in tlgcp.utils, the
vectorization bridge and the two solvers in
tlgcp.generalized_parafac._generalized_parafac and
tlgcp.stochastic_generalized_parafac) is absent, so those parts are modelled
from the specification text and checked against it and against the notebook
callers that are present.
-/

namespace TlGcp

open Real

/-! ## Loss registry -/

/-- Names of the seven built-in losses of the registry. -/
inductive LossName where
  | rayleigh
  | bernoulli_odds
  | bernoulli_logit
  | gamma
  | poisson_count
  | poisson_log
  | gaussian
deriving DecidableEq, Repr

/-- Modelled from the spec: elementwise loss value `L(x, m)` of each built-in
loss, with stabilizing epsilon `eps` (the registry `tlgcp.utils.loss_operator`
is not under `src/`). -/
noncomputable def lossValue (n : LossName) (eps x m : ℝ) : ℝ :=
  match n with
  | .rayleigh => 2 * Real.log (m + eps) + Real.pi / 4 * (x / (m + eps)) ^ 2
  | .bernoulli_odds => Real.log (m + 1) - x * Real.log (m + eps)
  | .bernoulli_logit => Real.log (1 + Real.exp m) - x * m
  | .gamma => x / (m + eps) + Real.log (m + eps)
  | .poisson_count => m - x * Real.log (m + eps)
  | .poisson_log => Real.exp m - x * m
  | .gaussian => (x - m) ^ 2

/-- Modelled from the spec: elementwise loss gradient `dL/dm` of each built-in
loss (the registry `tlgcp.utils.gradient_operator` is not under `src/`). -/
noncomputable def lossGrad (n : LossName) (eps x m : ℝ) : ℝ :=
  match n with
  | .rayleigh => 2 / (m + eps) - Real.pi / 2 * x ^ 2 / (m + eps) ^ 3
  | .bernoulli_odds => 1 / (m + 1) - x / (m + eps)
  | .bernoulli_logit => Real.exp m / (Real.exp m + 1) - x
  | .gamma => -x / (m + eps) ^ 2 + 1 / (m + eps)
  | .poisson_count => 1 - x / (m + eps)
  | .poisson_log => Real.exp m - x
  | .gaussian => 2 * (m - x)

/-- Modelled from the spec: the domain constraint attached to each built-in
loss by the registry. -/
def lossDom (n : LossName) (x m : ℝ) : Prop :=
  match n with
  | .rayleigh => 0 < x ∧ 0 < m
  | .bernoulli_odds => (x = 0 ∨ x = 1) ∧ 0 < m
  | .bernoulli_logit => x = 0 ∨ x = 1
  | .gamma => 0 < x ∧ 0 < m
  | .poisson_count => 0 < m
  | .poisson_log => True
  | .gaussian => True

/-- C2. For every x > 0 and m > 0 (and positive stabilizing epsilon), the
built-in rayleigh loss has elementwise value
2·log(m+eps) + (pi/4)·(x/(m+eps))^2, its registered elementwise gradient is
2/(m+eps) − (pi/2)·x^2/(m+eps)^3, and that gradient is the derivative of the
loss value in the model variable m. -/
theorem rayleigh_loss_value_and_gradient (x m eps : ℝ)
    (hx : 0 < x) (hm : 0 < m) (heps : 0 < eps) :
    lossValue .rayleigh eps x m
        = 2 * Real.log (m + eps) + Real.pi / 4 * (x / (m + eps)) ^ 2 ∧
    lossGrad .rayleigh eps x m
        = 2 / (m + eps) - Real.pi / 2 * x ^ 2 / (m + eps) ^ 3 ∧
    HasDerivAt (fun t => lossValue .rayleigh eps x t)
        (lossGrad .rayleigh eps x m) m := by
  have hpos : 0 < m + eps := by linarith
  have hne : m + eps ≠ 0 := ne_of_gt hpos
  refine ⟨rfl, rfl, ?_⟩
  have hid : HasDerivAt (fun t : ℝ => t + eps) 1 m := (hasDerivAt_id m).add_const eps
  have hlog : HasDerivAt (fun t : ℝ => Real.log (t + eps)) (1 / (m + eps)) m :=
    hid.log hne
  have hdivraw : HasDerivAt (fun t : ℝ => x / (t + eps))
      ((0 * (m + eps) - x * 1) / (m + eps) ^ 2) m :=
    (hasDerivAt_const m x).div hid hne
  have hdiv : HasDerivAt (fun t : ℝ => x / (t + eps)) (-x / (m + eps) ^ 2) m := by
    convert hdivraw using 1
    ring
  have hsq : HasDerivAt (fun t : ℝ => (x / (t + eps)) ^ 2)
      ((2 : ℕ) * (x / (m + eps)) ^ 1 * (-x / (m + eps) ^ 2)) m := hdiv.pow 2
  have hfull : HasDerivAt (fun t => lossValue .rayleigh eps x t)
      (2 * (1 / (m + eps)) +
        Real.pi / 4 * ((2 : ℕ) * (x / (m + eps)) ^ 1 * (-x / (m + eps) ^ 2))) m := by
    simpa [lossValue] using (hlog.const_mul 2).add (hsq.const_mul (Real.pi / 4))
  convert hfull using 1
  show lossGrad .rayleigh eps x m = _
  simp only [lossGrad]
  field_simp
  ring

/-- Witness for C2 at the concrete feasible point x = 1, m = 1, eps = 1. -/
theorem rayleigh_loss_value_and_gradient_witness :
    lossValue .rayleigh 1 1 1
        = 2 * Real.log (1 + 1) + Real.pi / 4 * (1 / (1 + 1)) ^ 2 ∧
    lossGrad .rayleigh 1 1 1
        = 2 / (1 + 1) - Real.pi / 2 * 1 ^ 2 / (1 + 1) ^ 3 ∧
    HasDerivAt (fun t => lossValue .rayleigh 1 1 t) (lossGrad .rayleigh 1 1 1) 1 :=
  rayleigh_loss_value_and_gradient 1 1 1 (by norm_num) (by norm_num) (by norm_num)

/-- C7. The built-in bernoulli_logit loss has elementwise value
log(1+e^m) − x·m and registered gradient e^m/(e^m+1) − x; its registry domain
constraint is exactly x = 0 or x = 1, with no constraint on the model value m;
and for every real m (no positivity assumption) the registered gradient is the
derivative of the loss value in m. -/
theorem bernoulli_logit_loss_value_and_gradient (x : ℝ) (hx : x = 0 ∨ x = 1) :
    (∀ m : ℝ, lossValue .bernoulli_logit 0 x m = Real.log (1 + Real.exp m) - x * m) ∧
    (∀ m : ℝ, lossGrad .bernoulli_logit 0 x m = Real.exp m / (Real.exp m + 1) - x) ∧
    (∀ m : ℝ, lossDom .bernoulli_logit x m ↔ (x = 0 ∨ x = 1)) ∧
    (∀ m : ℝ, HasDerivAt (fun t => lossValue .bernoulli_logit 0 x t)
        (lossGrad .bernoulli_logit 0 x m) m) := by
  refine ⟨fun m => rfl, fun m => rfl, fun m => Iff.rfl, fun m => ?_⟩
  have hpos : 0 < 1 + Real.exp m := by positivity
  have hexp : HasDerivAt (fun t : ℝ => 1 + Real.exp t) (Real.exp m) m := by
    simpa using (Real.hasDerivAt_exp m).const_add 1
  have hlog : HasDerivAt (fun t : ℝ => Real.log (1 + Real.exp t))
      (Real.exp m / (1 + Real.exp m)) m := hexp.log (ne_of_gt hpos)
  have hlin : HasDerivAt (fun t : ℝ => x * t) x m := by
    simpa using (hasDerivAt_id m).const_mul x
  have hfull : HasDerivAt (fun t => lossValue .bernoulli_logit 0 x t)
      (Real.exp m / (1 + Real.exp m) - x) m := by
    simpa [lossValue] using hlog.sub hlin
  convert hfull using 1
  show lossGrad .bernoulli_logit 0 x m = _
  simp only [lossGrad]
  ring_nf

/-- Witness for C7 at the concrete feasible point x = 1. -/
theorem bernoulli_logit_loss_value_and_gradient_witness :
    (∀ m : ℝ, lossValue .bernoulli_logit 0 1 m = Real.log (1 + Real.exp m) - 1 * m) ∧
    (∀ m : ℝ, lossGrad .bernoulli_logit 0 1 m = Real.exp m / (Real.exp m + 1) - 1) ∧
    (∀ m : ℝ, lossDom .bernoulli_logit 1 m ↔ ((1 : ℝ) = 0 ∨ (1 : ℝ) = 1)) ∧
    (∀ m : ℝ, HasDerivAt (fun t => lossValue .bernoulli_logit 0 1 t)
        (lossGrad .bernoulli_logit 0 1 m) m) :=
  bernoulli_logit_loss_value_and_gradient 1 (Or.inr rfl)

/-! ## Vectorization bridge

Modelled from the spec, section 4.2: the flat parameter vector is the
deterministic order-preserving concatenation of the factor matrices (row
major, modes in order), as consumed by `vectorized_factors_to_tensor` from
`tlgcp.generalized_parafac._generalized_parafac` (not under `src/`). -/

/-- Flatten CP factor matrices (a list of matrices; a matrix is a list of
rows) to the single flat parameter vector: rows concatenated within each
factor, factors concatenated in the fixed mode order. -/
def flattenFactors (fs : List (List (List ℝ))) : List ℝ :=
  (fs.map List.flatten).flatten

/-- Cut the first `numRows` rows of length `r` off a flat vector. -/
def rowsOf (r numRows : ℕ) (v : List ℝ) : List (List ℝ) :=
  match numRows with
  | 0 => []
  | k + 1 => v.take r :: rowsOf r k (v.drop r)

/-- Inverse of `flattenFactors` given the tensor shape and the rank: cut the
flat vector back into one `(I_n, r)` matrix per mode, in the fixed mode
order. -/
def unflattenFactors (v : List ℝ) (shape : List ℕ) (r : ℕ) : List (List (List ℝ)) :=
  match shape with
  | [] => []
  | dim :: rest => rowsOf r dim v :: unflattenFactors (v.drop (dim * r)) rest r

/-- Factors conform to a shape and rank: one matrix per mode, with one row per index of the mode, every row of length `r`. -/
def FactorsConform : List (List (List ℝ)) → List ℕ → ℕ → Prop
  | [], [], _ => True
  | mat :: fs, dim :: rest, r =>
      mat.length = dim ∧ (∀ row ∈ mat, row.length = r) ∧ FactorsConform fs rest r
  | _, _, _ => False

theorem rowsOf_append (r : ℕ) (mat : List (List ℝ)) (rest : List ℝ)
    (hrow : ∀ row ∈ mat, row.length = r) :
    rowsOf r mat.length (mat.flatten ++ rest) = mat ∧
      (mat.flatten ++ rest).drop (mat.length * r) = rest := by
  induction mat generalizing r with
  | nil => simp [rowsOf]
  | cons row tl ih =>
      have hr : row.length = r := hrow row (by simp)
      subst hr
      have htl : ∀ q ∈ tl, q.length = row.length := fun q hq => hrow q (by simp [hq])
      have ihs := ih row.length htl
      constructor
      · simp only [List.length_cons, rowsOf, List.flatten_cons, List.append_assoc]
        rw [List.take_left, List.drop_left]
        rw [ihs.1]
      · simp only [List.length_cons, List.flatten_cons, List.append_assoc, Nat.succ_mul]
        rw [Nat.add_comm (tl.length * row.length) row.length, ← List.drop_drop,
          List.drop_left]
        exact ihs.2

/-- C6. Flattening conforming CP factors to the single parameter vector and
unflattening reproduces the original factors exactly (the pair is a pure
reindexing in the fixed mode order, with no loss); the flat vector has the
expected total length `sum over modes of I_n * r`. -/
theorem flatten_unflatten_roundtrip (fs : List (List (List ℝ))) (shape : List ℕ)
    (r : ℕ) (h : FactorsConform fs shape r) :
    unflattenFactors (flattenFactors fs) shape r = fs ∧
      (flattenFactors fs).length = (shape.map (· * r)).sum := by
  induction fs generalizing shape with
  | nil =>
      cases shape with
      | nil => simp [flattenFactors, unflattenFactors]
      | cons dim rest => exact absurd h (by simp [FactorsConform])
  | cons mat tl ih =>
      cases shape with
      | nil => exact absurd h (by simp [FactorsConform])
      | cons dim rest =>
          obtain ⟨hlen, hrow, htl⟩ := h
          have key := rowsOf_append r mat (flattenFactors tl) hrow
          have ihs := ih rest htl
          have hflat : flattenFactors (mat :: tl) = mat.flatten ++ flattenFactors tl := by
            simp [flattenFactors]
          constructor
          · simp only [unflattenFactors, hflat, ← hlen, key.1, key.2, ihs.1]
          · have hall : ∀ a ∈ mat.map List.length, a = r := by
              intro a ha
              obtain ⟨row, hrmem, hrlen⟩ := List.mem_map.mp ha
              exact hrlen ▸ hrow row hrmem
            have hjoin : mat.flatten.length = dim * r := by
              rw [List.length_flatten,
                List.sum_eq_card_nsmul (mat.map List.length) r hall,
                List.length_map, hlen, smul_eq_mul]
            rw [hflat, List.length_append, hjoin, ihs.2]
            simp

/-- Witness for C6 on concrete rank-2 factors for shape [3, 1]. -/
theorem flatten_unflatten_roundtrip_witness :
    FactorsConform [[[1, 2], [3, 4], [5, 6]], [[7, 8]]] [3, 1] 2 ∧
    (unflattenFactors (flattenFactors [[[1, 2], [3, 4], [5, 6]], [[7, 8]]]) [3, 1] 2
        = [[[1, 2], [3, 4], [5, 6]], [[7, 8]]] ∧
      (flattenFactors [[[1, 2], [3, 4], [5, 6]], [[7, 8]]]).length
        = ([3, 1].map (· * 2)).sum) :=
  ⟨by simp [FactorsConform],
    flatten_unflatten_roundtrip [[[1, 2], [3, 4], [5, 6]], [[7, 8]]] [3, 1] 2
      (by simp [FactorsConform])⟩

/-! ## CP reconstruction and the MTTKRP gradient engine

Modelled from the spec, sections 4.2 and 4.3 (the implementations
`vectorized_factors_to_tensor` and `vectorized_mttkrp` of
`tlgcp.generalized_parafac._generalized_parafac` are not under `src/`). -/

/-- Entry `(i, c)` of a factor matrix, out-of-range reads giving 0. -/
def facEntry (mat : List (List ℝ)) (i c : ℕ) : ℝ :=
  (mat.getD i []).getD c 0

/-- All multi-indices of a tensor of the given shape, in lexicographic
order. -/
def allIndices : List ℕ → List (List ℕ)
  | [] => [[]]
  | dim :: rest => (List.range dim).flatMap (fun i => (allIndices rest).map (i :: ·))

/-- CP reconstruction at one multi-index: sum over the rank of the product of
the matching factor columns (unit weights). -/
def cpRec (fs : List (List (List ℝ))) (r : ℕ) (idx : List ℕ) : ℝ :=
  ((List.range r).map (fun c => ((fs.zip idx).map (fun p => facEntry p.1 p.2 c)).prod)).sum

/-- CP reconstruction with an explicit weight vector, as accepted by
`tensorly.cp_to_tensor`: each rank-one term is scaled by its weight. -/
def cpToTensor (w : List ℝ) (fs : List (List (List ℝ))) (r : ℕ) (idx : List ℕ) : ℝ :=
  ((List.range r).map
    (fun c => w.getD c 0 * ((fs.zip idx).map (fun p => facEntry p.1 p.2 c)).prod)).sum

/-- `vectorized_factors_to_tensor`: reconstruct the full tensor estimate (as a
function of the multi-index) from the flat parameter vector. -/
def vectorized_factors_to_tensor (v : List ℝ) (shape : List ℕ) (r : ℕ)
    (idx : List ℕ) : ℝ :=
  cpRec (unflattenFactors v shape r) r idx

/-- Product of factor entries over every mode except mode `n`, at column `c`
and multi-index `idx`. -/
def prodExcept (fs : List (List (List ℝ))) (idx : List ℕ) (c n : ℕ) : ℝ :=
  (((List.range fs.length).filter (fun m => m ≠ n)).map
    (fun m => facEntry (fs.getD m []) (idx.getD m 0) c)).prod

/-- Mode-`n` MTTKRP of the elementwise gradient tensor `G` against the current
factors: matricize `G` along mode `n` and contract with the Khatri-Rao product
of the factors of the other modes. -/
def mttkrpMode (G : List ℕ → ℝ) (shape : List ℕ) (fs : List (List (List ℝ)))
    (r n : ℕ) : List (List ℝ) :=
  (List.range (shape.getD n 0)).map (fun i =>
    (List.range r).map (fun c =>
      (((allIndices shape).filter (fun idx => idx.getD n 0 = i)).map
        (fun idx => G idx * prodExcept fs idx c n)).sum))

/-- `vectorized_mttkrp`: per-mode MTTKRP partial gradients, re-flattened in
the fixed mode order to match the flat parameter layout. -/
def vectorized_mttkrp (G : List ℕ → ℝ) (v : List ℝ) (shape : List ℕ) (r : ℕ) :
    List ℝ :=
  flattenFactors ((List.range shape.length).map
    (fun n => mttkrpMode G shape (unflattenFactors v shape r) r n))

/-! ## Deterministic solver (GCP)

Modelled from the spec, section 4.4, and the README / custom-loss notebook:
`generalized_parafac` drives an external quasi-Newton (LBFGS) optimizer, which
it treats as opaque, through an objective callback (mean loss over all tensor
entries, via reconstruction from the flat vector) and a gradient callback
(elementwise loss derivative routed through the MTTKRP engine); the solver
implementation is not under `src/`. -/

/-- Errors of the configuration-validation phase. -/
inductive ConfigurationError where
  | invalidRank
  | ambiguousLoss
  | missingLoss
  | invalidBatch
  | invalidLearningRate
deriving DecidableEq, Repr

/-- The GCP objective callback: mean loss over all tensor entries, each entry
compared against the reconstruction from the flat parameter vector. -/
noncomputable def gcpObjective (X : List ℕ → ℝ) (shape : List ℕ) (r : ℕ)
    (L : ℝ → ℝ → ℝ) (v : List ℝ) : ℝ :=
  ((allIndices shape).map
    (fun i => L (X i) (vectorized_factors_to_tensor v shape r i))).sum
    / (shape.prod : ℝ)

/-- The GCP gradient callback: the elementwise loss derivative evaluated at
every entry, routed through the MTTKRP engine and rescaled by the entry
count. -/
noncomputable def gcpGradient (X : List ℕ → ℝ) (shape : List ℕ) (r : ℕ)
    (dL : ℝ → ℝ → ℝ) (v : List ℝ) : List ℝ :=
  (vectorized_mttkrp
      (fun i => dL (X i) (vectorized_factors_to_tensor v shape r i)) v shape r).map
    (fun a => a / (shape.prod : ℝ))

/-- Validation of the loss configuration: exactly one of a named built-in loss
or a full custom (loss, gradient) pair must be supplied. -/
def validateLossConfig {A B : Type} (loss : Option LossName) (funLoss : Option A)
    (funGradient : Option B) : Option ConfigurationError :=
  if loss.isSome then
    if funLoss.isSome || funGradient.isSome then some .ambiguousLoss else none
  else
    if funLoss.isSome && funGradient.isSome then none else some .missingLoss

/-- Select the (objective, gradient) callback pair: a named loss goes through
the registry, otherwise the user-supplied custom pair is used. -/
noncomputable def gcpCallbacks (X : List ℕ → ℝ) (shape : List ℕ) (r : ℕ) (eps : ℝ)
    (loss : Option LossName) (funLoss : Option (List ℝ → ℝ))
    (funGradient : Option (List ℝ → List ℝ)) :
    (List ℝ → ℝ) × (List ℝ → List ℝ) :=
  match loss with
  | some n => (gcpObjective X shape r (lossValue n eps),
      gcpGradient X shape r (lossGrad n eps))
  | none => (funLoss.getD (fun _ => 0), funGradient.getD (fun _ => []))

/-- The GCP optimization loop: each iteration asks the opaque external
optimizer for one step, handing it only the two callbacks, and records the
objective value as the error trace. Returns (final flat vector, error
trace). -/
noncomputable def gcpLoop
    (step : (List ℝ → ℝ) → (List ℝ → List ℝ) → List ℝ → List ℝ)
    (obj : List ℝ → ℝ) (grad : List ℝ → List ℝ) :
    ℕ → List ℝ → List ℝ × List ℝ
  | 0, v => (v, [])
  | n + 1, v =>
    let v1 := step obj grad v
    let rest := gcpLoop step obj grad n v1
    (rest.1, obj v1 :: rest.2)

/-- `generalized_parafac`, modelled from the spec: validate the configuration,
then run the external optimizer on the callbacks and unflatten the final flat
vector; returns a ((weights, factors), errors) result. -/
noncomputable def generalized_parafac
    (step : (List ℝ → ℝ) → (List ℝ → List ℝ) → List ℝ → List ℝ)
    (X : List ℕ → ℝ) (shape : List ℕ) (rank : ℤ) (initV : List ℝ)
    (loss : Option LossName) (funLoss : Option (List ℝ → ℝ))
    (funGradient : Option (List ℝ → List ℝ)) (eps : ℝ) (nIterMax : ℕ) :
    Except ConfigurationError ((List ℝ × List (List (List ℝ))) × List ℝ) :=
  if rank ≤ 0 then .error .invalidRank
  else
    match validateLossConfig loss funLoss funGradient with
    | some e => .error e
    | none =>
      let r := rank.toNat
      let cb := gcpCallbacks X shape r eps loss funLoss funGradient
      let run := gcpLoop step cb.1 cb.2 nIterMax initV
      .ok ((List.replicate r 1, unflattenFactors run.1 shape r), run.2)

/-- A trivial opaque optimizer step (used to instantiate witnesses): returns
the parameter vector unchanged. -/
def trivialStep : (List ℝ → ℝ) → (List ℝ → List ℝ) → List ℝ → List ℝ :=
  fun _ _ v => v

/-- The all-zero data tensor (used to instantiate witnesses). -/
def zeroTensor : List ℕ → ℝ := fun _ => 0

/-- C3. Exactly one of a named built-in loss or a custom (loss, gradient)
pair must be supplied: validation passes iff exactly one is present; with a
valid rank, supplying both makes `generalized_parafac` return the
configuration error `ambiguousLoss` and supplying neither the error
`missingLoss`, in both cases before any optimization runs; and the callback
selection uses the registry whenever a loss name is present and the custom
pair exactly when the loss name is None. -/
theorem loss_config_exactly_one
    (step : (List ℝ → ℝ) → (List ℝ → List ℝ) → List ℝ → List ℝ)
    (X : List ℕ → ℝ) (shape : List ℕ) (rank : ℤ) (initV : List ℝ) (eps : ℝ)
    (nIterMax : ℕ) (loss : Option LossName) (funLoss : Option (List ℝ → ℝ))
    (funGradient : Option (List ℝ → List ℝ)) :
    (validateLossConfig loss funLoss funGradient = none ↔
      ((loss.isSome ∧ funLoss = none ∧ funGradient = none) ∨
        (loss = none ∧ funLoss.isSome ∧ funGradient.isSome))) ∧
    (0 < rank → loss.isSome → (funLoss.isSome ∨ funGradient.isSome) →
      generalized_parafac step X shape rank initV loss funLoss funGradient eps nIterMax
        = .error .ambiguousLoss) ∧
    (0 < rank → loss = none → (funLoss = none ∨ funGradient = none) →
      generalized_parafac step X shape rank initV loss funLoss funGradient eps nIterMax
        = .error .missingLoss) ∧
    (∀ n, loss = some n →
      gcpCallbacks X shape rank.toNat eps loss funLoss funGradient
        = (gcpObjective X shape rank.toNat (lossValue n eps),
            gcpGradient X shape rank.toNat (lossGrad n eps))) ∧
    (∀ (f : List ℝ → ℝ) (g : List ℝ → List ℝ),
      gcpCallbacks X shape rank.toNat eps none (some f) (some g) = (f, g)) := by
  have hrank : ∀ h : 0 < rank, ¬ rank ≤ 0 := fun h => not_le.mpr h
  refine ⟨?_, ?_, ?_, ?_, ?_⟩
  · cases loss <;> cases funLoss <;> cases funGradient <;>
      simp [validateLossConfig]
  · intro h0 hsome hpair
    have hval : validateLossConfig loss funLoss funGradient = some .ambiguousLoss := by
      cases loss with
      | none => simp at hsome
      | some n =>
          rcases hpair with h | h <;>
            simp [validateLossConfig, h]
    simp [generalized_parafac, hrank h0, hval]
  · intro h0 hnone hmiss
    have hval : validateLossConfig loss funLoss funGradient = some .missingLoss := by
      subst hnone
      rcases hmiss with h | h <;> simp [validateLossConfig, h]
    simp [generalized_parafac, hrank h0, hval]
  · intro n hn
    subst hn
    rfl
  · intro f g
    rfl

/-- Witness for C3: concrete ambiguous and missing loss configurations, each
rejected before computation, and the concrete selection equations. -/
theorem loss_config_exactly_one_witness :
    (validateLossConfig (A := List ℝ → ℝ) (B := List ℝ → List ℝ)
        (some .gaussian) none none = none ↔
      (((some LossName.gaussian).isSome ∧ (none : Option (List ℝ → ℝ)) = none ∧
          (none : Option (List ℝ → List ℝ)) = none) ∨
        ((some LossName.gaussian) = none ∧ (none : Option (List ℝ → ℝ)).isSome ∧
          (none : Option (List ℝ → List ℝ)).isSome))) ∧
    (generalized_parafac trivialStep zeroTensor [1] 1 [0] (some .gaussian)
        (some (fun _ => 0)) none 1 1 = .error .ambiguousLoss) ∧
    (generalized_parafac trivialStep zeroTensor [1] 1 [0] none none none 1 1
        = .error .missingLoss) := by
  refine ⟨?_, ?_, ?_⟩
  · exact (loss_config_exactly_one trivialStep zeroTensor [1] 1 [0] 1 1
      (some .gaussian) none none).1
  · exact (loss_config_exactly_one trivialStep zeroTensor [1] 1 [0] 1 1
      (some .gaussian) (some (fun _ => 0)) none).2.1 (by norm_num) rfl (Or.inl rfl)
  · exact (loss_config_exactly_one trivialStep zeroTensor [1] 1 [0] 1 1
      none none none).2.2.1 (by norm_num) rfl (Or.inl rfl)

theorem gcpLoop_fst_iterate
    (step : (List ℝ → ℝ) → (List ℝ → List ℝ) → List ℝ → List ℝ)
    (obj : List ℝ → ℝ) (grad : List ℝ → List ℝ) :
    ∀ (k : ℕ) (v : List ℝ), (gcpLoop step obj grad k v).1 = (step obj grad)^[k] v := by
  intro k
  induction k with
  | zero => intro v; rfl
  | succ n ih =>
      intro v
      show (gcpLoop step obj grad n (step obj grad v)).1 = _
      rw [ih (step obj grad v), Function.iterate_succ_apply]

/-- C4. The deterministic GCP solver optimizes by repeatedly invoking the
step of the opaque external optimizer on exactly the two callbacks — after k
iterations its parameter vector is the k-fold iterate of the optimizer step
applied to (objective, gradient) — where the objective callback is the mean
loss over all tensor entries computed via reconstruction from the flat
parameter vector, and the gradient callback is the elementwise loss
derivative routed through the MTTKRP engine. -/
theorem gcp_drives_external_optimizer
    (step : (List ℝ → ℝ) → (List ℝ → List ℝ) → List ℝ → List ℝ)
    (obj : List ℝ → ℝ) (grad : List ℝ → List ℝ) (k : ℕ) (v : List ℝ)
    (X : List ℕ → ℝ) (shape : List ℕ) (r : ℕ) (L dL : ℝ → ℝ → ℝ) (w : List ℝ) :
    (gcpLoop step obj grad k v).1 = (step obj grad)^[k] v ∧
    gcpObjective X shape r L w =
      ((allIndices shape).map
        (fun i => L (X i) (cpRec (unflattenFactors w shape r) r i))).sum
        / (shape.prod : ℝ) ∧
    gcpGradient X shape r dL w =
      (vectorized_mttkrp
          (fun i => dL (X i) (cpRec (unflattenFactors w shape r) r i)) w shape r).map
        (fun a => a / (shape.prod : ℝ)) :=
  ⟨gcpLoop_fst_iterate step obj grad k v, rfl, rfl⟩

/-- C5. A custom (loss, gradient) pair extensionally equal to the built-in
gaussian callbacks makes `generalized_parafac` produce exactly the same
result — same factors and the same reconstruction-error trace — as the
built-in gaussian path on the same tensor, rank and initialization. -/
theorem gcp_custom_gaussian_equivalence
    (step : (List ℝ → ℝ) → (List ℝ → List ℝ) → List ℝ → List ℝ)
    (X : List ℕ → ℝ) (shape : List ℕ) (rank : ℤ) (initV : List ℝ) (eps : ℝ)
    (nIterMax : ℕ) (funLoss : List ℝ → ℝ) (funGradient : List ℝ → List ℝ)
    (hL : ∀ v, funLoss v = gcpObjective X shape rank.toNat (lossValue .gaussian eps) v)
    (hG : ∀ v, funGradient v
        = gcpGradient X shape rank.toNat (lossGrad .gaussian eps) v) :
    generalized_parafac step X shape rank initV none (some funLoss) (some funGradient)
        eps nIterMax
      = generalized_parafac step X shape rank initV (some .gaussian) none none
        eps nIterMax := by
  have h1 : funLoss = gcpObjective X shape rank.toNat (lossValue .gaussian eps) :=
    funext hL
  have h2 : funGradient = gcpGradient X shape rank.toNat (lossGrad .gaussian eps) :=
    funext hG
  subst h1
  subst h2
  by_cases hr : rank ≤ 0
  · simp [generalized_parafac, hr]
  · simp [generalized_parafac, hr, validateLossConfig, gcpCallbacks]

/-- Witness for C5: the custom pair defined to be the gaussian callbacks on a
concrete tensor reproduces the built-in gaussian run exactly. -/
theorem gcp_custom_gaussian_equivalence_witness :
    generalized_parafac trivialStep zeroTensor [1] 1 [0] none
        (some (gcpObjective zeroTensor [1] (1 : ℤ).toNat (lossValue .gaussian 1)))
        (some (gcpGradient zeroTensor [1] (1 : ℤ).toNat (lossGrad .gaussian 1))) 1 2
      = generalized_parafac trivialStep zeroTensor [1] 1 [0] (some .gaussian)
        none none 1 2 :=
  gcp_custom_gaussian_equivalence trivialStep zeroTensor [1] 1 [0] 1 2 _ _
    (fun _ => rfl) (fun _ => rfl)

theorem cpToTensor_one_weights (fs : List (List (List ℝ))) (r : ℕ) (idx : List ℕ) :
    cpToTensor (List.replicate r 1) fs r idx = cpRec fs r idx := by
  unfold cpToTensor cpRec
  congr 1
  apply List.map_congr_left
  intro c hc
  have hlt : c < r := List.mem_range.mp hc
  rw [List.getD_eq_getElem?_getD, List.getElem?_replicate, if_pos hlt]
  simp

/-- C9. Every successful result of `generalized_parafac` carries an explicit
weights component: it unpacks as a ((weights, factors), errors) value whose
weight vector is the all-ones vector of length rank, and feeding the
(weights, factors) pair to the CP reconstruction routine gives exactly the
plain CP reconstruction of the factors. -/
theorem gcp_result_has_weights
    (step : (List ℝ → ℝ) → (List ℝ → List ℝ) → List ℝ → List ℝ)
    (X : List ℕ → ℝ) (shape : List ℕ) (rank : ℤ) (initV : List ℝ)
    (loss : Option LossName) (funLoss : Option (List ℝ → ℝ))
    (funGradient : Option (List ℝ → List ℝ)) (eps : ℝ) (nIterMax : ℕ)
    (res : (List ℝ × List (List (List ℝ))) × List ℝ)
    (h : generalized_parafac step X shape rank initV loss funLoss funGradient eps
        nIterMax = .ok res) :
    res.1.1 = List.replicate rank.toNat 1 ∧
    ∀ idx, cpToTensor res.1.1 res.1.2 rank.toNat idx = cpRec res.1.2 rank.toNat idx := by
  by_cases hr : rank ≤ 0
  · simp [generalized_parafac, hr] at h
  · rcases hval : validateLossConfig loss funLoss funGradient with _ | e
    · simp only [generalized_parafac, if_neg hr, hval] at h
      have hres := Except.ok.inj h
      subst hres
      exact ⟨rfl, fun idx => cpToTensor_one_weights _ _ idx⟩
    · simp [generalized_parafac, hr, hval] at h

/-- Witness for C9: a concrete successful run whose weights are the explicit
all-ones vector of length rank. -/
theorem gcp_result_has_weights_witness :
    (generalized_parafac trivialStep zeroTensor [1] 1 [0] (some .gaussian)
        none none 1 0 = .ok (([1], [[[0]]]), [])) ∧
    ([1] : List ℝ) = List.replicate (1 : ℤ).toNat 1 ∧
    ∀ idx, cpToTensor [1] [[[0]]] (1 : ℤ).toNat idx
        = cpRec [[[0]]] (1 : ℤ).toNat idx := by
  have h : generalized_parafac trivialStep zeroTensor [1] 1 [0] (some .gaussian)
      none none 1 0 = .ok (([1], [[[0]]]), []) := by
    simp [generalized_parafac, validateLossConfig, gcpLoop, unflattenFactors, rowsOf]
  have hmain := gcp_result_has_weights trivialStep zeroTensor [1] 1 [0]
    (some .gaussian) none none 1 0 (([1], [[[0]]]), []) h
  exact ⟨h, hmain.1, hmain.2⟩

/-! ## Custom-loss closures in the shipped example

Modelled from the custom-loss notebook: the solver hands the custom callbacks
only the flat parameter vector, so the data tensor, shape, rank and the
normalization constant must reach them through their closed-over environment;
the closures of the shipped example look up the normalization constant `size`
in the notebook environment at call time (Python late binding), and the cell
defining `size` runs after the cell defining the closures. -/

/-- A notebook environment: scalar bindings by name. -/
def NotebookEnv : Type := String → Option ℝ

/-- The environment right after the closure-defining cell of the custom-loss
notebook: no scalar bindings exist yet, in particular `size` is unbound. -/
def envAfterClosureCell : NotebookEnv := fun _ => none

/-- The environment after the data cell, which defines the tensor of shape
[60, 80, 50] and `size` as its total entry count. -/
def envAfterDataCell : NotebookEnv := fun name =>
  if name = "size" then some ((60 : ℝ) * 80 * 50) else envAfterClosureCell name

/-- The `fun_loss` closure of the example: invoked with only the flat parameter
vector; the normalization constant `size` is resolved in the ambient
environment at call time. -/
noncomputable def exampleFunLoss (X : List ℕ → ℝ) (shape : List ℕ) (r : ℕ)
    (env : NotebookEnv) (v : List ℝ) : Option ℝ :=
  (env "size").map (fun s =>
    ((allIndices shape).map
      (fun i => (X i - vectorized_factors_to_tensor v shape r i) ^ 2)).sum / s)

/-- C10. On the custom-loss path the solver passes the callbacks only the
flat parameter vector — the run is entirely independent of the data-tensor
argument, so tensor, shape, rank and normalization constant must reach the
callbacks through their closures — and in the shipped example the
normalization constant `size` is unbound in the environment in force when the
closures are defined (calling the closure there fails) and only receives its
value 240000 in a later cell, after which the closure call succeeds. -/
theorem gcp_custom_closures_capture_environment :
    (∀ (step : (List ℝ → ℝ) → (List ℝ → List ℝ) → List ℝ → List ℝ)
        (X1 X2 : List ℕ → ℝ) (shape : List ℕ) (rank : ℤ) (initV : List ℝ)
        (funLoss : List ℝ → ℝ) (funGradient : List ℝ → List ℝ) (eps : ℝ) (n : ℕ),
      generalized_parafac step X1 shape rank initV none (some funLoss)
          (some funGradient) eps n
        = generalized_parafac step X2 shape rank initV none (some funLoss)
          (some funGradient) eps n) ∧
    envAfterClosureCell "size" = none ∧
    (∀ X shape r v, exampleFunLoss X shape r envAfterClosureCell v = none) ∧
    envAfterDataCell "size" = some 240000 ∧
    (∀ X shape r v, exampleFunLoss X shape r envAfterDataCell v
      = some (((allIndices shape).map
          (fun i => (X i - vectorized_factors_to_tensor v shape r i) ^ 2)).sum
          / 240000)) := by
  refine ⟨fun step X1 X2 shape rank initV funLoss funGradient eps n => rfl,
    rfl, fun X shape r v => rfl, ?_, ?_⟩
  · show (if ("size" : String) = "size" then some ((60 : ℝ) * 80 * 50) else none)
        = some 240000
    rw [if_pos rfl]
    norm_num
  · intro X shape r v
    show ((if ("size" : String) = "size" then some ((60 : ℝ) * 80 * 50) else none).map _)
        = _
    rw [if_pos rfl]
    show some _ = some _
    norm_num

/-! ## Stochastic solver (SGCP)

Modelled from the spec, section 4.5, and the Toy_example notebook (which
documents the learning-rate backoff by 10 after each failed epoch, the budget
of 20 successive bad epochs and the printed divergence marker); the
implementation `tlgcp.stochastic_generalized_parafac` is not under `src/`. -/

/-- Static configuration of one SGCP run: tensor, shape, rank, the selected
elementwise loss and gradient, ADAM constants, batch size, iterations per
epoch, and the injectable mini-batch sampler. -/
structure SGCPConfig where
  X : List ℕ → ℝ
  shape : List ℕ
  r : ℕ
  L : ℝ → ℝ → ℝ
  dL : ℝ → ℝ → ℝ
  beta1 : ℝ
  beta2 : ℝ
  adamEps : ℝ
  batchSize : ℕ
  itersPerEpoch : ℕ
  sampler : ℕ → List (List ℕ)

/-- Mutable optimizer state of one SGCP run: flat parameter vector, current
learning rate, consecutive-bad-epoch counter, ADAM first/second moments, best
full-batch error observed with the factors achieving it, and the error
trace. -/
structure SGCPState where
  v : List ℝ
  lr : ℝ
  bad : ℕ
  m1 : List ℝ
  m2 : List ℝ
  bestErr : ℝ
  bestV : List ℝ
  errors : List ℝ

/-- One stochastic iteration: sample a mini-batch of entry indices, evaluate
the elementwise gradient only there, route it through the batch-restricted
MTTKRP, and apply one ADAM update at the current learning rate. -/
noncomputable def sgcpInnerStep (cfg : SGCPConfig) (s : SGCPState) (it : ℕ) :
    SGCPState :=
  let batch := (cfg.sampler it).take cfg.batchSize
  let G : List ℕ → ℝ := fun idx =>
    if idx ∈ batch then
      cfg.dL (cfg.X idx) (vectorized_factors_to_tensor s.v cfg.shape cfg.r idx)
    else 0
  let g := vectorized_mttkrp G s.v cfg.shape cfg.r
  let n1 := List.zipWith (fun a b => cfg.beta1 * a + (1 - cfg.beta1) * b) s.m1 g
  let n2 := List.zipWith (fun a b => cfg.beta2 * a + (1 - cfg.beta2) * b * b) s.m2 g
  let upd := List.zipWith (fun a b => a / (Real.sqrt b + cfg.adamEps)) n1 n2
  { s with
    v := List.zipWith (fun x u => x - s.lr * u) s.v upd
    m1 := n1
    m2 := n2 }

/-- One epoch of stochastic iterations. -/
noncomputable def sgcpInnerEpoch (cfg : SGCPConfig) (s : SGCPState) : SGCPState :=
  (List.range cfg.itersPerEpoch).foldl (sgcpInnerStep cfg) s

/-- The full-batch error on the current factors (same scalar as the GCP
objective for the selected loss). -/
noncomputable def sgcpFullError (cfg : SGCPConfig) (v : List ℝ) : ℝ :=
  gcpObjective cfg.X cfg.shape cfg.r cfg.L v

/-- The epoch-boundary bookkeeping: an improving full-batch error resets the
bad-epoch counter and keeps the learning rate (recording the new best); a
non-improving error increments the counter and divides the learning rate by
10. -/
noncomputable def sgcpBoundary (s : SGCPState) (err : ℝ) : SGCPState :=
  if err < s.bestErr then
    { s with bad := 0, bestErr := err, bestV := s.v, errors := s.errors ++ [err] }
  else
    { s with bad := s.bad + 1, lr := s.lr / 10, errors := s.errors ++ [err] }

/-- Result of one SGCP run: a (weights, factors) CP result, the error trace,
and the divergence marker flag (set instead of raising). -/
structure SGCPOut where
  weights : List ℝ
  factors : List (List (List ℝ))
  errors : List ℝ
  diverged : Bool

/-- The state after one more epoch: inner iterations followed by the
full-batch error check at the epoch boundary. -/
noncomputable def sgcpNext (cfg : SGCPConfig) (s : SGCPState) : SGCPState :=
  let s1 := sgcpInnerEpoch cfg s
  sgcpBoundary s1 (sgcpFullError cfg s1.v)

/-- The SGCP epoch loop: when the bad-epoch counter reaches 20 the run stops
early with the divergence marker and the best-seen factors; exhausting the
epoch budget returns the current factors with no marker. -/
noncomputable def sgcpLoop (cfg : SGCPConfig) : SGCPState → ℕ → SGCPOut
  | s, 0 => ⟨List.replicate cfg.r 1, unflattenFactors s.v cfg.shape cfg.r,
      s.errors, false⟩
  | s, e + 1 =>
    let s2 := sgcpNext cfg s
    if 20 ≤ s2.bad then
      ⟨List.replicate cfg.r 1, unflattenFactors s2.bestV cfg.shape cfg.r,
        s2.errors, true⟩
    else sgcpLoop cfg s2 e

/-- `stochastic_generalized_parafac`, modelled from the spec: validate rank,
batch size, learning rate and the loss configuration, then run the epoch
loop from the ADAM start state. -/
noncomputable def stochastic_generalized_parafac
    (X : List ℕ → ℝ) (shape : List ℕ) (rank : ℤ) (initV : List ℝ)
    (loss : Option LossName) (funLoss funGradient : Option (ℝ → ℝ → ℝ))
    (lr : ℝ) (batchSize : ℕ) (epochs itersPerEpoch : ℕ)
    (beta1 beta2 adamEps eps : ℝ) (sampler : ℕ → List (List ℕ)) :
    Except ConfigurationError SGCPOut :=
  if rank ≤ 0 then .error .invalidRank
  else if shape.prod < batchSize then .error .invalidBatch
  else if lr ≤ 0 then .error .invalidLearningRate
  else
    match validateLossConfig loss funLoss funGradient with
    | some e => .error e
    | none =>
      let r := rank.toNat
      let cb : (ℝ → ℝ → ℝ) × (ℝ → ℝ → ℝ) :=
        match loss with
        | some n => (lossValue n eps, lossGrad n eps)
        | none => (funLoss.getD (fun _ _ => 0), funGradient.getD (fun _ _ => 0))
      let cfg : SGCPConfig :=
        ⟨X, shape, r, cb.1, cb.2, beta1, beta2, adamEps, batchSize, itersPerEpoch,
          sampler⟩
      let s0 : SGCPState :=
        ⟨initV, lr, 0, List.replicate initV.length 0, List.replicate initV.length 0,
          gcpObjective X shape r cb.1 initV, initV, []⟩
      .ok (sgcpLoop cfg s0 epochs)

/-- C1. At each SGCP epoch boundary: a full-batch error improving on the best
observed resets the bad-epoch counter to 0 and keeps the learning rate; a
non-improving error increments the counter and divides the learning rate by
10 while keeping the recorded best factors; and as soon as the counter
reaches 20 the run stops early, sets the divergence marker (instead of
raising), and returns the best-seen factors rather than the most recent
ones. -/
theorem sgcp_epoch_control_and_divergence
    (cfg : SGCPConfig) (s : SGCPState) (err : ℝ) (e : ℕ) :
    (err < s.bestErr →
      (sgcpBoundary s err).bad = 0 ∧ (sgcpBoundary s err).lr = s.lr ∧
      (sgcpBoundary s err).bestErr = err ∧ (sgcpBoundary s err).bestV = s.v) ∧
    (¬ err < s.bestErr →
      (sgcpBoundary s err).bad = s.bad + 1 ∧
      (sgcpBoundary s err).lr = s.lr / 10 ∧
      (sgcpBoundary s err).bestV = s.bestV) ∧
    (20 ≤ (sgcpNext cfg s).bad →
      sgcpLoop cfg s (e + 1)
        = ⟨List.replicate cfg.r 1,
            unflattenFactors (sgcpNext cfg s).bestV cfg.shape cfg.r,
            (sgcpNext cfg s).errors, true⟩ ∧
      (sgcpLoop cfg s (e + 1)).diverged = true ∧
      (sgcpLoop cfg s (e + 1)).factors
        = unflattenFactors (sgcpNext cfg s).bestV cfg.shape cfg.r) := by
  refine ⟨?_, ?_, ?_⟩
  · intro h
    simp [sgcpBoundary, if_pos h]
  · intro h
    simp [sgcpBoundary, if_neg h]
  · intro h
    have hloop : sgcpLoop cfg s (e + 1)
        = ⟨List.replicate cfg.r 1,
            unflattenFactors (sgcpNext cfg s).bestV cfg.shape cfg.r,
            (sgcpNext cfg s).errors, true⟩ := by
      rw [sgcpLoop]
      simp only [if_pos h]
    exact ⟨hloop, by rw [hloop], by rw [hloop]⟩

/-- A concrete SGCP configuration for the witnesses: shape [1], rank 1,
gaussian elementwise loss, zero data tensor, empty epochs. -/
noncomputable def witnessCfg : SGCPConfig :=
  ⟨zeroTensor, [1], 1, fun x m => (x - m) ^ 2, fun x m => 2 * (m - x),
    9 / 10, 99 / 100, 1, 1, 0, fun _ => [[0]]⟩

/-- A concrete SGCP state whose best error 5 is beaten by error 0 but not by
error 9. -/
noncomputable def witnessStateA : SGCPState := ⟨[1], 1, 3, [0], [0], 5, [2], []⟩

/-- A concrete SGCP state one bad epoch away from the divergence budget, with
an unbeatable recorded best error. -/
noncomputable def witnessStateB : SGCPState := ⟨[1], 1, 19, [0], [0], -1, [2], []⟩

/-- Witness for C1: the three epoch-boundary behaviors at concrete states —
improvement resets, non-improvement backs off the rate, and the twentieth bad
epoch stops the run with the marker and the best-seen factors. -/
theorem sgcp_epoch_control_and_divergence_witness :
    ((sgcpBoundary witnessStateA 0).bad = 0 ∧
      (sgcpBoundary witnessStateA 0).lr = witnessStateA.lr ∧
      (sgcpBoundary witnessStateA 0).bestErr = 0 ∧
      (sgcpBoundary witnessStateA 0).bestV = witnessStateA.v) ∧
    ((sgcpBoundary witnessStateA 9).bad = witnessStateA.bad + 1 ∧
      (sgcpBoundary witnessStateA 9).lr = witnessStateA.lr / 10 ∧
      (sgcpBoundary witnessStateA 9).bestV = witnessStateA.bestV) ∧
    ((sgcpLoop witnessCfg witnessStateB 1).diverged = true ∧
      (sgcpLoop witnessCfg witnessStateB 1).factors
        = unflattenFactors (sgcpNext witnessCfg witnessStateB).bestV
            witnessCfg.shape witnessCfg.r) := by
  have h20 : 20 ≤ (sgcpNext witnessCfg witnessStateB).bad := by
    norm_num [sgcpNext, sgcpInnerEpoch, sgcpFullError, sgcpBoundary, witnessCfg,
      witnessStateB, zeroTensor, gcpObjective, allIndices, List.range_succ,
      vectorized_factors_to_tensor, cpRec, unflattenFactors, rowsOf, facEntry]
  refine ⟨?_, ?_, ?_⟩
  · exact (sgcp_epoch_control_and_divergence witnessCfg witnessStateA 0 0).1
      (by norm_num [witnessStateA])
  · exact (sgcp_epoch_control_and_divergence witnessCfg witnessStateA 9 0).2.1
      (by norm_num [witnessStateA])
  · have hmain := (sgcp_epoch_control_and_divergence witnessCfg witnessStateB 0 0).2.2 h20
    exact ⟨hmain.2.1, hmain.2.2⟩

/-- C8. A rank at most 0 makes both solvers return the configuration error
invalidRank; with a valid rank, an SGCP batch size exceeding the total entry
count returns invalidBatch, and (with a valid batch size) a non-positive
learning rate returns invalidLearningRate — in every case the error is the
whole result, so no iteration runs and no factors are produced or mutated. -/
theorem solver_validation_before_iteration
    (step : (List ℝ → ℝ) → (List ℝ → List ℝ) → List ℝ → List ℝ)
    (X : List ℕ → ℝ) (shape : List ℕ) (rank : ℤ) (initV : List ℝ)
    (loss : Option LossName) (funLoss : Option (List ℝ → ℝ))
    (funGradient : Option (List ℝ → List ℝ)) (eps : ℝ) (nIterMax : ℕ)
    (eLoss eGrad : Option (ℝ → ℝ → ℝ)) (lr : ℝ) (batchSize : ℕ)
    (epochs itersPerEpoch : ℕ) (beta1 beta2 adamEps : ℝ)
    (sampler : ℕ → List (List ℕ)) :
    (rank ≤ 0 →
      generalized_parafac step X shape rank initV loss funLoss funGradient eps
          nIterMax = .error .invalidRank ∧
      stochastic_generalized_parafac X shape rank initV loss eLoss eGrad lr
          batchSize epochs itersPerEpoch beta1 beta2 adamEps eps sampler
        = .error .invalidRank) ∧
    (0 < rank → shape.prod < batchSize →
      stochastic_generalized_parafac X shape rank initV loss eLoss eGrad lr
          batchSize epochs itersPerEpoch beta1 beta2 adamEps eps sampler
        = .error .invalidBatch) ∧
    (0 < rank → batchSize ≤ shape.prod → lr ≤ 0 →
      stochastic_generalized_parafac X shape rank initV loss eLoss eGrad lr
          batchSize epochs itersPerEpoch beta1 beta2 adamEps eps sampler
        = .error .invalidLearningRate) := by
  refine ⟨?_, ?_, ?_⟩
  · intro h
    constructor
    · simp [generalized_parafac, if_pos h]
    · simp [stochastic_generalized_parafac, if_pos h]
  · intro h0 hb
    simp [stochastic_generalized_parafac, if_neg (not_le.mpr h0), if_pos hb]
  · intro h0 hb hlr
    simp [stochastic_generalized_parafac, if_neg (not_le.mpr h0),
      if_neg (not_lt.mpr hb), if_pos hlr]

/-- Witness for C8: concrete invalid rank, oversized batch, and non-positive
learning rate, each rejected. -/
theorem solver_validation_before_iteration_witness :
    (generalized_parafac trivialStep zeroTensor [1] 0 [0] (some .gaussian)
        none none 1 1 = .error .invalidRank ∧
      stochastic_generalized_parafac zeroTensor [1] 0 [0] (some .gaussian)
        none none 1 1 1 1 (9 / 10) (99 / 100) 1 1 (fun _ => [[0]])
        = .error .invalidRank) ∧
    (stochastic_generalized_parafac zeroTensor [1] 1 [0] (some .gaussian)
        none none 1 2 1 1 (9 / 10) (99 / 100) 1 1 (fun _ => [[0]])
        = .error .invalidBatch) ∧
    (stochastic_generalized_parafac zeroTensor [1] 1 [0] (some .gaussian)
        none none 0 1 1 1 (9 / 10) (99 / 100) 1 1 (fun _ => [[0]])
        = .error .invalidLearningRate) := by
  refine ⟨?_, ?_, ?_⟩
  · exact (solver_validation_before_iteration trivialStep zeroTensor [1] 0 [0]
      (some .gaussian) none none 1 1 none none 1 1 1 1 (9 / 10) (99 / 100) 1
      (fun _ => [[0]])).1 (by norm_num)
  · exact (solver_validation_before_iteration trivialStep zeroTensor [1] 1 [0]
      (some .gaussian) none none 1 1 none none 1 2 1 1 (9 / 10) (99 / 100) 1
      (fun _ => [[0]])).2.1 (by norm_num) (by norm_num)
  · exact (solver_validation_before_iteration trivialStep zeroTensor [1] 1 [0]
      (some .gaussian) none none 1 1 none none 0 1 1 1 (9 / 10) (99 / 100) 1
      (fun _ => [[0]])).2.2 (by norm_num) (by norm_num) (by norm_num)

end TlGcp
